import Mathlib

/-! # Verification of the RGI hit-classification and nudge core

Shallow embedding of the classification and refinement logic of
app/Base.py (class BaseModel): the coordinate/gap resolver
(find_num_dash), the sequence-retrieval helpers
(get_submitted_protein_sequence, get_orf_dna_sequence), the partial
sequence fetcher (get_part_sequence), the strand-aware translator
invocation, the two nudge rules (nudge_strict_to_perfect,
nudge_loose_to_strict) and the hit classifier (results), together with
theorems settling the specification claims about them.

Modelling conventions:
* Python dictionaries are insertion-ordered association lists.
* File contents are explicit values; a filesystem is a partial map from
  paths to file values; a raised Python exception is Except.error with
  the exception name as the message; a Python None result is Option.none.
* Logging calls are pure observers and are dropped.
-/

/-- Python slice s[x:y] on a string: each negative index wraps once by
adding the length, then both bounds clamp into the range [0, len]. -/
def py_slice (s : String) (x y : Int) : String :=
  let n : Int := (s.length : Int)
  let a : Int := if x < 0 then max (n + x) 0 else min x n
  let b : Int := if y < 0 then max (n + y) 0 else min y n
  String.mk ((s.data.take b.toNat).drop a.toNat)

/-- Helper for py_rfind: scan left to right with a running index,
remembering the index of the last occurrence seen so far. -/
def py_rfind_aux (c : Char) : List Char → Nat → Int → Int
  | [], _, best => best
  | x :: xs, i, best => py_rfind_aux c xs (i + 1) (if x = c then (i : Int) else best)

/-- Python str.rfind for a single character: index of its last
occurrence in the string, or -1 when it does not occur. -/
def py_rfind (s : String) (c : Char) : Int := py_rfind_aux c s.data 0 (-1)

/-- Python os.path.basename for POSIX paths: everything after the last
slash (the whole string when there is no slash). -/
def py_basename (s : String) : String :=
  py_slice s (py_rfind s '/' + 1) (s.length : Int)

/-- Python os.path.join for a directory (assumed without a trailing
slash) and a relative file name. -/
def py_path_join (dir file : String) : String := dir ++ "/" ++ file

/-- Python dict assignment d[k] = v on an insertion-ordered association
list: replace the value in place when the key is present, otherwise
append the new binding at the end. -/
def py_dict_set {α : Type} : List (String × α) → String → α → List (String × α)
  | [], k, v => [(k, v)]
  | (k', v') :: rest, k, v =>
    if k' = k then (k, v) :: rest else (k', v') :: py_dict_set rest k v

/-- Build a Python dict from a list of key/value pairs by repeated
assignment (later duplicates overwrite earlier ones). -/
def py_dict_of_records (rs : List (String × String)) : List (String × String) :=
  rs.foldl (fun d p => py_dict_set d p.1 p.2) []

/-- Decide whether the second list is a prefix of the first. -/
def py_starts : List Char → List Char → Bool
  | _, [] => true
  | [], _ :: _ => false
  | x :: xs, y :: ys => x = y && py_starts xs ys

/-- Decide whether needle occurs contiguously inside the haystack. -/
def py_in_list (needle : List Char) : List Char → Bool
  | [] => needle.isEmpty
  | c :: rest => py_starts (c :: rest) needle || py_in_list needle rest

/-- Python substring test: py_in needle hay models "needle in hay". -/
def py_in (needle hay : String) : Bool := py_in_list needle.data hay.data

/-- Python int() applied to a numeric value: truncation toward zero. -/
def py_int (q : Rat) : Int := q.num.tdiv (q.den : Int)

/-- First-key association-list lookup, modelling access by record name
into an indexed FASTA file. -/
def assoc_lookup : List (String × String) → String → Option String
  | [], _ => none
  | (k, v) :: rest, key => if k = key then some v else assoc_lookup rest key

/-! ## Translator (codon table 11)

Seq(...).translate(table=11): genetic code table 11 has the same
codon-to-amino-acid assignments as the standard table (it differs only
in its set of start codons, which translate does not consult). A
trailing incomplete codon is dropped (Biopython emits a partial-codon
warning and translates the complete codons); codons outside the A/C/G/T
alphabet are rendered as X. No claim depends on non-A/C/G/T input. -/

/-- Codon-to-amino-acid map of genetic code table 11 (upper case). -/
def codon_aa (a b c : Char) : Char :=
  match a, b, c with
  | 'T', 'T', 'T' => 'F' | 'T', 'T', 'C' => 'F' | 'T', 'T', 'A' => 'L' | 'T', 'T', 'G' => 'L'
  | 'C', 'T', 'T' => 'L' | 'C', 'T', 'C' => 'L' | 'C', 'T', 'A' => 'L' | 'C', 'T', 'G' => 'L'
  | 'A', 'T', 'T' => 'I' | 'A', 'T', 'C' => 'I' | 'A', 'T', 'A' => 'I' | 'A', 'T', 'G' => 'M'
  | 'G', 'T', 'T' => 'V' | 'G', 'T', 'C' => 'V' | 'G', 'T', 'A' => 'V' | 'G', 'T', 'G' => 'V'
  | 'T', 'C', 'T' => 'S' | 'T', 'C', 'C' => 'S' | 'T', 'C', 'A' => 'S' | 'T', 'C', 'G' => 'S'
  | 'C', 'C', 'T' => 'P' | 'C', 'C', 'C' => 'P' | 'C', 'C', 'A' => 'P' | 'C', 'C', 'G' => 'P'
  | 'A', 'C', 'T' => 'T' | 'A', 'C', 'C' => 'T' | 'A', 'C', 'A' => 'T' | 'A', 'C', 'G' => 'T'
  | 'G', 'C', 'T' => 'A' | 'G', 'C', 'C' => 'A' | 'G', 'C', 'A' => 'A' | 'G', 'C', 'G' => 'A'
  | 'T', 'A', 'T' => 'Y' | 'T', 'A', 'C' => 'Y' | 'T', 'A', 'A' => '*' | 'T', 'A', 'G' => '*'
  | 'C', 'A', 'T' => 'H' | 'C', 'A', 'C' => 'H' | 'C', 'A', 'A' => 'Q' | 'C', 'A', 'G' => 'Q'
  | 'A', 'A', 'T' => 'N' | 'A', 'A', 'C' => 'N' | 'A', 'A', 'A' => 'K' | 'A', 'A', 'G' => 'K'
  | 'G', 'A', 'T' => 'D' | 'G', 'A', 'C' => 'D' | 'G', 'A', 'A' => 'E' | 'G', 'A', 'G' => 'E'
  | 'T', 'G', 'T' => 'C' | 'T', 'G', 'C' => 'C' | 'T', 'G', 'A' => '*' | 'T', 'G', 'G' => 'W'
  | 'C', 'G', 'T' => 'R' | 'C', 'G', 'C' => 'R' | 'C', 'G', 'A' => 'R' | 'C', 'G', 'G' => 'R'
  | 'A', 'G', 'T' => 'S' | 'A', 'G', 'C' => 'S' | 'A', 'G', 'A' => 'R' | 'A', 'G', 'G' => 'R'
  | 'G', 'G', 'T' => 'G' | 'G', 'G', 'C' => 'G' | 'G', 'G', 'A' => 'G' | 'G', 'G', 'G' => 'G'
  | _, _, _ => 'X'

/-- Translate the complete codons of an upper-cased nucleotide list. -/
def translate_aux : List Char → List Char
  | a :: b :: c :: rest => codon_aa a b c :: translate_aux rest
  | _ => []

/-- Seq(bases, generic_dna).translate(table=11). -/
def translate11 (s : String) : String :=
  String.mk (translate_aux (s.data.map Char.toUpper))

/-- Nucleotide complement (case preserved; non-nucleotide characters
are kept unchanged, none occur in the verified scenarios). -/
def complement_char (c : Char) : Char :=
  match c with
  | 'A' => 'T' | 'T' => 'A' | 'C' => 'G' | 'G' => 'C'
  | 'a' => 't' | 't' => 'a' | 'c' => 'g' | 'g' => 'c'
  | _ => c

/-- Seq(bases, generic_dna).reverse_complement(). -/
def reverse_complement (s : String) : String :=
  String.mk ((s.data.map complement_char).reverse)

/-- Strand-aware translation exactly as invoked by
nudge_strict_to_perfect: reverse-complement first on the minus strand,
translate directly otherwise, always under codon table 11. -/
def strand_translate (strand : String) (bases : String) : String :=
  if strand = "-" then translate11 (reverse_complement bases) else translate11 bases

/-- The _partial_protein computation of nudge_strict_to_perfect: the
value defaults to the first residue alone (partial_protein[0]) and is
replaced by M followed by the remainder of the protein exactly when
that first residue is one of the alternate start translations
L, M, I, V. The empty case never arises in nudge_one, which indexes
the protein (raising IndexError) before this value is formed. -/
def normalize_start (p : String) : String :=
  match p.data with
  | [] => p
  | c :: rest =>
    if c = 'L' ∨ c = 'M' ∨ c = 'I' ∨ c = 'V' then String.mk ('M' :: rest)
    else String.mk [c]

/-! ## Data model -/

/-- One aligned candidate (the subset of the per-hit dictionary fields
that the classification core reads or writes). -/
structure Hit where
  perc_identity : Rat
  type_match : String
  model_type_id : Int
  sequence_from_broadstreet : String
  orf_prot_sequence : String
  match_ : String
  orf_from : String
  orf_start : Int
  orf_end : Int
  orf_strand : String
  ARO_name : String
  nudged : Bool
  partial_bases : Option String
  deriving DecidableEq

/-- Per-tier mapping from aligner-hit identifier to Hit. -/
abbrev TierMap := List (String × Hit)

/-- The fields of BaseModel consumed by the classification core:
input_sequence is the indexed FASTA store denoted by the
self.input_sequence path, loose is the loose-reporting configuration
flag, working_directory is the output/work directory. -/
structure BaseModel where
  input_sequence : List (String × String)
  loose : Bool
  working_directory : String
  deriving DecidableEq

/-- A file on disk as seen by the sequence-retrieval helpers: its
os.stat size and the FASTA records it parses into. -/
structure FastaFile where
  size : Nat
  records : List (String × String)
  deriving DecidableEq

/-! ## Coordinate/gap resolver -/

/-- Loop of find_num_dash: dash_count and the length of the accumulated
non-dash output are threaded through; the loop breaks as soon as the
output length equals index. -/
def find_num_dash_aux : List Char → Nat → Nat → Nat → Nat
  | [], _, dash_count, _ => dash_count
  | c :: rest, index, dash_count, out_len =>
    let dash' := if c = '-' then dash_count + 1 else dash_count
    let out' := if c = '-' then out_len else out_len + 1
    if out' = index then dash' else find_num_dash_aux rest index dash' out'

/-- BaseModel.find_num_dash: count dashes in the aligner subject string,
breaking once index non-dash characters have been accumulated. -/
def find_num_dash (subject : String) (index : Nat) : Nat :=
  find_num_dash_aux subject.data index 0 0

/-- Modelled from the spec words of claim C10 (the value the claim
describes, for comparison with find_num_dash): the number of gap
characters encountered strictly before index non-gap characters have
been accumulated; when the string runs out first, all its gaps. -/
def spec_dash_count : List Char → Nat → Nat
  | _, 0 => 0
  | [], _ + 1 => 0
  | c :: rest, n + 1 =>
    if c = '-' then 1 + spec_dash_count rest (n + 1) else spec_dash_count rest n

/-! ## Sequence retrieval -/

/-- BaseModel.get_submitted_protein_sequence: os.stat the file (raising
OSError / FileNotFoundError when it is absent), and parse its FASTA
records into a dict only when the size is non-zero. -/
def get_submitted_protein_sequence (fs : String → Option FastaFile)
    (seq_filepath : String) : Except String (List (String × String)) :=
  match fs seq_filepath with
  | none => .error "FileNotFoundError"
  | some f => .ok (if f.size ≠ 0 then py_dict_of_records f.records else [])

/-- BaseModel.get_orf_dna_sequence: per input type, os.stat the derived
ORF file (raising when it is absent) and parse it when non-empty; an
input type other than contig or read raises ValueError. The JSON dump
of the predicted genes is an output-only effect with no influence on
the returned mapping and is not modelled. -/
def get_orf_dna_sequence (fs : String → Option FastaFile) (m : BaseModel)
    (input_file input_type : String) : Except String (List (String × String)) :=
  let filename := py_basename input_file
  if input_type = "contig" then
    let contig_filepath := py_path_join m.working_directory
      (filename ++ ".temp.contigToORF.fsa")
    match fs contig_filepath with
    | none => .error "FileNotFoundError"
    | some f => .ok (if f.size ≠ 0 then py_dict_of_records f.records else [])
  else if input_type = "read" then
    let read_filepath := py_path_join m.working_directory
      (filename ++ ".temp.read.fsa")
    match fs read_filepath with
    | none => .error "FileNotFoundError"
    | some f => .ok (if f.size ≠ 0 then py_dict_of_records f.records else [])
  else
    .error "ValueError"

/-! ## Partial sequence fetcher -/

/-- pyfaidx get_spliced_seq for a single interval: the 1-based
inclusive region [a, b] of the sequence (non-strict bounds clamp). -/
def get_spliced_seq (seq : String) (a b : Int) : String :=
  py_slice seq (a - 1) b

/-- BaseModel.get_part_sequence: strip the trailing underscore suffix
from the header (header[:header.rfind("_")]), then fetch the spliced
region [stop, stop+nterminus] on the minus strand or
[start-nterminus, start] on the plus strand from the indexed FASTA
store; a header absent from the store raises KeyError inside either
strand branch; any other strand value falls off the if/elif and the
function silently returns Python None (modelled as Option.none). -/
def get_part_sequence (fasta_file : List (String × String)) (header : String)
    (start stop : Int) (nterminus : Int) (strand : String) (_name : String) :
    Except String (Option String) :=
  let header' := py_slice header 0 (py_rfind header '_')
  if strand = "-" then
    match assoc_lookup fasta_file header' with
    | none => .error "KeyError"
    | some seq => .ok (some (get_spliced_seq seq stop (stop + nterminus)))
  else if strand = "+" then
    match assoc_lookup fasta_file header' with
    | none => .error "KeyError"
    | some seq => .ok (some (get_spliced_seq seq (start - nterminus) start))
  else
    .ok none

/-! ## Nudge engine -/

/-- Body of the nudge_loose_to_strict loop for one hit: a hit whose
integer-truncated percent identity lies in [95, 100] is promoted to
Strict with nudged set; the returned flag records whether the
promotion assignment ran. -/
def nudge_loose_one (h : Hit) : Bool × Hit :=
  if 95 ≤ py_int h.perc_identity ∧ py_int h.perc_identity ≤ 100 then
    (true, { h with type_match := "Strict", nudged := true })
  else
    (false, h)

/-- BaseModel.nudge_loose_to_strict: apply the promotion rule to every
hit of the loose mapping; the boolean is the nudged flag, true once any
promotion ran. -/
def nudge_loose_to_strict : TierMap → Bool × TierMap
  | [] => (false, [])
  | (k, h) :: rest =>
    let r := nudge_loose_one h
    let rs := nudge_loose_to_strict rest
    (r.1 || rs.1, (k, r.2) :: rs.2)

/-- Body of the nudge_strict_to_perfect loop for one hit, following the
source exactly: guard on truncated percent identity 100, type_match
Strict and a model_type_id outside the nudge-exempt set [40295]; then
Case A (query shorter than and contained in the reference: fetch
(len(reference) - len(match))*3 flanking bases, translate strand-aware
under table 11, form _partial_protein per normalize_start — the first
translated residue, or M plus the remainder for an L/M/I/V start — and
promote exactly when its concatenation with match equals the
reference, storing partial_bases), Case B (reference strictly contained in the query:
promote immediately, no fetch), and the log-only overlap case.
Python exceptions along the way (KeyError from the fetch, TypeError
from Seq(None) when the fetch silently returned None, IndexError from
indexing an empty translated protein) are Except.error. -/
def nudge_one (m : BaseModel) (h : Hit) : Except String (Bool × Hit) :=
  if py_int h.perc_identity = 100 ∧ h.type_match = "Strict" ∧ h.model_type_id ≠ 40295 then
    let reference := h.sequence_from_broadstreet
    let query := h.orf_prot_sequence
    if query.length < reference.length ∧ py_in query reference = true then
      let length_nucleotides : Int :=
        ((reference.length : Int) - (h.match_.length : Int)) * 3
      match get_part_sequence m.input_sequence h.orf_from h.orf_start h.orf_end
          length_nucleotides h.orf_strand h.ARO_name with
      | .error e => .error e
      | .ok none => .error "TypeError"
      | .ok (some partial_bases) =>
        let partial_protein := strand_translate h.orf_strand partial_bases
        match partial_protein.data with
        | [] => .error "IndexError"
        | _ :: _ =>
          let combine := normalize_start partial_protein ++ h.match_
          if combine = h.sequence_from_broadstreet then
            .ok (true, { h with type_match := "Perfect", nudged := true,
                                partial_bases := some partial_bases })
          else
            .ok (false, h)
    else if reference.length < query.length ∧ py_in reference query = true then
      .ok (true, { h with type_match := "Perfect", nudged := true })
    else
      .ok (false, h)
  else
    .ok (false, h)

/-- BaseModel.nudge_strict_to_perfect: apply nudge_one to every hit of
the strict mapping, a raised exception aborting the whole call; the
boolean is the nudged flag, true once any promotion ran. -/
def nudge_strict_to_perfect (m : BaseModel) : TierMap → Except String (Bool × TierMap)
  | [] => .ok (false, [])
  | (k, h) :: rest =>
    match nudge_one m h with
    | .error e => .error e
    | .ok (b, h1) =>
      match nudge_strict_to_perfect m rest with
      | .error e => .error e
      | .ok (bs, rest1) => .ok (b || bs, (k, h1) :: rest1)

/-! ## Hit classifier -/

/-- BaseModel.results: tier dominance with nudging. Perfect wins as-is;
otherwise a non-empty strict mapping is nudged Strict-to-Perfect and
recorded; otherwise a non-empty loose mapping is nudged Loose-to-Strict
and recorded when the nudge promoted something or the loose flag is on;
with all tiers empty nothing is recorded. -/
def results (m : BaseModel) (blast_results : List (String × TierMap))
    (query_id : String) (perfect strict loose : TierMap) :
    Except String (List (String × TierMap)) :=
  if perfect.length = 0 ∧ strict.length = 0 ∧ loose.length > 0 then
    if (nudge_loose_to_strict loose).1 = true ∧ m.loose = false then
      .ok (py_dict_set blast_results query_id (nudge_loose_to_strict loose).2)
    else if m.loose = true then
      .ok (py_dict_set blast_results query_id (nudge_loose_to_strict loose).2)
    else
      .ok blast_results
  else if perfect.length = 0 then
    if strict.length > 0 then
      match nudge_strict_to_perfect m strict with
      | .error e => .error e
      | .ok (_, strict1) => .ok (py_dict_set blast_results query_id strict1)
    else
      .ok blast_results
  else
    if perfect.length > 0 then
      .ok (py_dict_set blast_results query_id perfect)
    else
      .ok blast_results

/-! ## Observers and concrete fixtures -/

/-- The fields of a hit that the classification core never writes:
everything except type_match, nudged and partial_bases. -/
def hit_core (h : Hit) :
    Rat × Int × String × String × String × String × Int × Int × String × String :=
  (h.perc_identity, h.model_type_id, h.sequence_from_broadstreet,
    h.orf_prot_sequence, h.match_, h.orf_from, h.orf_start, h.orf_end,
    h.orf_strand, h.ARO_name)

/-- Numeric height of a confidence tier (unknown tags sit below Loose). -/
def tier_rank (t : String) : Nat :=
  if t = "Loose" then 1 else if t = "Strict" then 2
  else if t = "Perfect" then 3 else 0

/-- Neutral hit used as the base of the concrete fixtures. -/
def hit0 : Hit :=
  { perc_identity := 0, type_match := "Loose", model_type_id := 0,
    sequence_from_broadstreet := "", orf_prot_sequence := "", match_ := "",
    orf_from := "", orf_start := 0, orf_end := 0, orf_strand := "+",
    ARO_name := "", nudged := false, partial_bases := none }

/-- Loose hit at 97 percent identity (promotable). -/
def hit97 : Hit :=
  { hit0 with
    perc_identity := 97 }

/-- Loose hit at 94 percent identity (not promotable). -/
def hit94 : Hit :=
  { hit0 with
    perc_identity := 94 }

/-- Model over a one-contig FASTA store, loose reporting off. -/
def modelA : BaseModel :=
  { input_sequence := [("contig1", "ATGGCTAAA")], loose := false,
    working_directory := "wd" }

/-- Model with the loose configuration flag off. -/
def modelOff : BaseModel :=
  { input_sequence := [], loose := false, working_directory := "wd" }

/-- Model with the loose configuration flag on. -/
def modelOn : BaseModel :=
  { input_sequence := [], loose := true, working_directory := "wd" }

/-- Strict hit in Case A position: query "A" is a strict prefix-missing
fragment of reference "MA"; the four fetched bases "ATGG" of contig1
translate to "M" and complete the reference. -/
def hitA : Hit :=
  { hit0 with
    perc_identity := 100,
    type_match := "Strict",
    sequence_from_broadstreet := "MA",
    orf_prot_sequence := "A",
    match_ := "A",
    orf_from := "contig1_1",
    orf_start := 4,
    orf_end := 6 }

/-- The promoted form of hitA after the Case A nudge. -/
def hitA1 : Hit :=
  { hitA with
    type_match := "Perfect",
    nudged := true,
    partial_bases := some "ATGG" }

/-- Strict hit in Case B position: the reference is strictly contained
in the longer query ORF protein (the query is the reference protein of
the specification example). -/
def hitB : Hit :=
  { hit0 with
    perc_identity := 100,
    type_match := "Strict",
    sequence_from_broadstreet := "KTAYIAKQRQ",
    orf_prot_sequence := "MKTAYIAKQRQISFVKSHFSRQLEERLGLIEVQAPILSRVGDGTQDNLSGAEKGVQGFGR",
    match_ := "KTAYIAKQRQ" }

/-- The promoted form of hitB after the Case B nudge. -/
def hitB1 : Hit :=
  { hitB with
    type_match := "Perfect",
    nudged := true }

/-- One-file filesystem fixture: a zero-byte file at the given path. -/
def fsZero (path : String) : String → Option FastaFile :=
  fun p => if p = path then some { size := 0, records := [] } else none

/-- Modelled from the spec words of claim C1, for comparison with the
code's normalize_start: the whole translated partial protein, its
first residue replaced by M when it is one of L, M, I, V and kept in
place otherwise (the code instead keeps only the first residue in the
latter case). -/
def claim_normalize_start (p : String) : String :=
  match p.data with
  | [] => p
  | c :: rest =>
    if c = 'L' ∨ c = 'M' ∨ c = 'I' ∨ c = 'V' then String.mk ('M' :: rest) else p

/-- Model over the contig used by the C1 counterexample: positions 2-8
of contig2 read GGTGCTA, which translates to GA. -/
def modelC : BaseModel :=
  { input_sequence := [("contig2", "AGGTGCTAAA")], loose := false,
    working_directory := "wd" }

/-- Strict hit in Case A position whose translated partial protein GA
does not start with an alternate start residue: reference GAK, query
and match K, so the code combines G with K while the claim's reading
combines GA with K. -/
def hitC : Hit :=
  { hit0 with
    perc_identity := 100,
    type_match := "Strict",
    sequence_from_broadstreet := "GAK",
    orf_prot_sequence := "K",
    match_ := "K",
    orf_from := "contig2_1",
    orf_start := 8,
    orf_end := 10 }

/-! ## Coordinate/gap resolver: proofs -/

/-- Loop invariant of find_num_dash: with out accumulated non-dash
characters (out < index) and dash counted dashes, the loop returns dash
plus the dashes seen before another index - out non-dash characters. -/
theorem find_num_dash_aux_spec (l : List Char) : ∀ (index dash out : Nat), out < index →
    find_num_dash_aux l index dash out = dash + spec_dash_count l (index - out) := by
  induction l with
  | nil =>
    intro index dash out hlt
    obtain ⟨n, hn⟩ : ∃ n, index - out = n + 1 := ⟨index - out - 1, by omega⟩
    simp [find_num_dash_aux, hn, spec_dash_count]
  | cons c rest ih =>
    intro index dash out hlt
    obtain ⟨n, hn⟩ : ∃ n, index - out = n + 1 := ⟨index - out - 1, by omega⟩
    by_cases hc : c = '-'
    · have hbreak : ¬ (out = index) := by omega
      rw [show find_num_dash_aux (c :: rest) index dash out
          = if out = index then dash + 1 else find_num_dash_aux rest index (dash + 1) out by
        simp [find_num_dash_aux, hc]]
      rw [if_neg hbreak, ih index (dash + 1) out hlt, hn]
      simp [spec_dash_count, hc]
      omega
    · rw [show find_num_dash_aux (c :: rest) index dash out
          = if out + 1 = index then dash else find_num_dash_aux rest index dash (out + 1) by
        simp [find_num_dash_aux, hc]]
      by_cases hstop : out + 1 = index
      · rw [if_pos hstop]
        have hn1 : index - out = 1 := by omega
        rw [hn1]
        simp [spec_dash_count, hc]
      · rw [if_neg hstop, ih index dash (out + 1) (by omega), hn]
        have : index - (out + 1) = n := by omega
        rw [this]
        simp [spec_dash_count, hc]

/-- Appending extra characters after a prefix that already holds k
non-dash characters does not change the claimed dash count. -/
theorem spec_dash_count_append (t : List Char) : ∀ (s : List Char) (k : Nat),
    k ≤ (s.filter (fun c => c != '-')).length →
    spec_dash_count (s ++ t) k = spec_dash_count s k := by
  intro s
  induction s with
  | nil =>
    intro k hk
    simp at hk
    subst hk
    simp [spec_dash_count]
  | cons c rest ih =>
    intro k hk
    cases k with
    | zero => simp [spec_dash_count]
    | succ n =>
      by_cases hc : c = '-'
      · have hk' : n + 1 ≤ (rest.filter (fun c => c != '-')).length := by
          simpa [List.filter_cons, hc] using hk
        simp [spec_dash_count, hc, ih (n + 1) hk']
      · have hk' : n ≤ (rest.filter (fun c => c != '-')).length := by
          have := hk
          simp [List.filter_cons, hc] at this
          omega
        simp [spec_dash_count, hc, ih n hk']

/-- C10 counterexample: find_num_dash processes the first character
before testing the break condition, so at index 0 on the subject "-"
it counts one dash although zero non-gap characters were to be
accumulated (the claim describes the count 0 there). -/
theorem find_num_dash_index_zero_cex :
    find_num_dash "-" 0 = 1 ∧ spec_dash_count (String.data "-") 0 = 0
      ∧ find_num_dash "-" 0 ≠ spec_dash_count (String.data "-") 0 := by
  decide

/-- C10 (amended: for every index at least 1): find_num_dash returns
the number of gap characters encountered before index non-gap
characters have been accumulated, characters beyond the stopping point
never influence the result, and find_num_dash "AC--GT" 4 = 2. -/
theorem find_num_dash_spec :
    (∀ (s : String) (index : Nat), 1 ≤ index →
      find_num_dash s index = spec_dash_count s.data index)
    ∧ (∀ (s t : String) (index : Nat), 1 ≤ index →
      index ≤ (s.data.filter (fun c => c != '-')).length →
      find_num_dash (s ++ t) index = find_num_dash s index)
    ∧ find_num_dash "AC--GT" 4 = 2 := by
  have main : ∀ (s : String) (index : Nat), 1 ≤ index →
      find_num_dash s index = spec_dash_count s.data index := by
    intro s index h1
    have := find_num_dash_aux_spec s.data index 0 0 (by omega)
    simpa using this
  refine ⟨main, ?_, by decide⟩
  intro s t index h1 hcnt
  rw [main (s ++ t) index h1, main s index h1, String.data_append,
    spec_dash_count_append t.data s.data index hcnt]

/-- C10 witness: the amended theorem applied at concrete inputs. -/
theorem find_num_dash_spec_witness :
    (1 ≤ 4 ∧ find_num_dash "AC--GT" 4 = spec_dash_count (String.data "AC--GT") 4)
    ∧ (1 ≤ 2 ∧ 2 ≤ ((String.data "AC-A").filter (fun c => c != '-')).length
      ∧ find_num_dash ("AC-A" ++ "--X") 2 = find_num_dash "AC-A" 2) :=
  ⟨⟨by decide, find_num_dash_spec.1 "AC--GT" 4 (by decide)⟩,
    ⟨by decide, by decide, find_num_dash_spec.2.1 "AC-A" "--X" 2 (by decide) (by decide)⟩⟩

/-! ## Partial sequence fetcher: proofs -/

/-- C4: for strand values outside the plus/minus pair,
get_part_sequence silently returns Python None instead of signalling an
invalid-strand error (the code falls off the end of its if/elif); on
the minus strand it returns the spliced region [stop, stop+length] and
on the plus strand the region [start-length, start] of the record named
by the suffix-stripped header. The first conjunct exhibits the
divergence from the claimed explicit error. -/
theorem get_part_sequence_strand_behavior :
    (∀ (store : List (String × String)) (header : String) (start stop nterm : Int)
      (nm strand : String), strand ≠ "+" → strand ≠ "-" →
      get_part_sequence store header start stop nterm strand nm = .ok none)
    ∧ (∀ (store : List (String × String)) (header : String) (start stop nterm : Int)
      (nm seq : String),
      assoc_lookup store (py_slice header 0 (py_rfind header '_')) = some seq →
      get_part_sequence store header start stop nterm "-" nm =
        .ok (some (get_spliced_seq seq stop (stop + nterm)))
      ∧ get_part_sequence store header start stop nterm "+" nm =
        .ok (some (get_spliced_seq seq (start - nterm) start))) := by
  constructor
  · intro store header start stop nterm nm strand hplus hminus
    unfold get_part_sequence
    rw [if_neg hminus, if_neg hplus]
  · intro store header start stop nterm nm seq hlook
    constructor
    · unfold get_part_sequence
      rw [if_pos rfl, hlook]
    · unfold get_part_sequence
      rw [if_neg (by decide : ¬ ("+" : String) = "-"), if_pos rfl, hlook]

/-- C4 witness: concrete store and coordinates; strand "." silently
yields none, while the two valid strands return the documented regions. -/
theorem get_part_sequence_strand_behavior_witness :
    (("." : String) ≠ "+" ∧ ("." : String) ≠ "-"
      ∧ get_part_sequence [("contig1", "ATGGCTAAA")] "contig1_1" 4 6 3 "." "gene" = .ok none)
    ∧ (assoc_lookup [("contig1", "ATGGCTAAA")]
        (py_slice "contig1_1" 0 (py_rfind "contig1_1" '_')) = some "ATGGCTAAA"
      ∧ get_part_sequence [("contig1", "ATGGCTAAA")] "contig1_1" 4 6 3 "-" "gene" =
          .ok (some (get_spliced_seq "ATGGCTAAA" 6 (6 + 3)))
      ∧ get_part_sequence [("contig1", "ATGGCTAAA")] "contig1_1" 4 6 3 "+" "gene" =
          .ok (some (get_spliced_seq "ATGGCTAAA" (4 - 3) 4))) :=
  ⟨⟨by decide, by decide,
      get_part_sequence_strand_behavior.1 [("contig1", "ATGGCTAAA")] "contig1_1" 4 6 3 "gene" "."
        (by decide) (by decide)⟩,
    ⟨by decide,
      (get_part_sequence_strand_behavior.2 [("contig1", "ATGGCTAAA")] "contig1_1" 4 6 3 "gene"
        "ATGGCTAAA" (by decide)).1,
      (get_part_sequence_strand_behavior.2 [("contig1", "ATGGCTAAA")] "contig1_1" 4 6 3 "gene"
        "ATGGCTAAA" (by decide)).2⟩⟩

/-! ## Sequence retrieval: proofs -/

/-- C7 counterexample: a missing sequence file does not yield an empty
mapping; os.stat raises, so get_submitted_protein_sequence propagates
an error on the empty filesystem. -/
theorem sequence_retrieval_missing_cex :
    get_submitted_protein_sequence (fun _ => none) "input.fasta" = .error "FileNotFoundError"
    ∧ get_submitted_protein_sequence (fun _ => none) "input.fasta" ≠
        .ok ([] : List (String × String)) :=
  ⟨rfl, fun hco => Except.noConfusion
    (show (Except.error "FileNotFoundError" : Except String (List (String × String)))
        = Except.ok [] from hco)⟩

/-- C7 (amended): a zero-byte sequence file yields an empty result
mapping in get_submitted_protein_sequence and in both the contig and
read branches of get_orf_dna_sequence, but a missing file makes
os.stat raise (FileNotFoundError) instead of yielding an empty
mapping. -/
theorem sequence_retrieval_empty_amended :
    (∀ (fs : String → Option FastaFile) (path : String) (f : FastaFile),
      fs path = some f → f.size = 0 →
      get_submitted_protein_sequence fs path = .ok [])
    ∧ (∀ (fs : String → Option FastaFile) (path : String),
      fs path = none →
      get_submitted_protein_sequence fs path = .error "FileNotFoundError")
    ∧ (∀ (fs : String → Option FastaFile) (m : BaseModel) (input_file : String) (f : FastaFile),
      fs (py_path_join m.working_directory
        (py_basename input_file ++ ".temp.contigToORF.fsa")) = some f → f.size = 0 →
      get_orf_dna_sequence fs m input_file "contig" = .ok [])
    ∧ (∀ (fs : String → Option FastaFile) (m : BaseModel) (input_file : String) (f : FastaFile),
      fs (py_path_join m.working_directory
        (py_basename input_file ++ ".temp.read.fsa")) = some f → f.size = 0 →
      get_orf_dna_sequence fs m input_file "read" = .ok [])
    ∧ (∀ (fs : String → Option FastaFile) (m : BaseModel) (input_file : String),
      fs (py_path_join m.working_directory
        (py_basename input_file ++ ".temp.contigToORF.fsa")) = none →
      get_orf_dna_sequence fs m input_file "contig" = .error "FileNotFoundError") := by
  refine ⟨?_, ?_, ?_, ?_, ?_⟩
  · intro fs path f hf hz
    unfold get_submitted_protein_sequence
    rw [hf]
    simp [hz]
  · intro fs path hf
    unfold get_submitted_protein_sequence
    rw [hf]
  · intro fs m input_file f hf hz
    unfold get_orf_dna_sequence
    rw [if_pos rfl]
    simp [hf, hz]
  · intro fs m input_file f hf hz
    unfold get_orf_dna_sequence
    rw [if_neg (by decide : ¬ ("read" : String) = "contig"), if_pos rfl]
    simp [hf, hz]
  · intro fs m input_file hf
    unfold get_orf_dna_sequence
    rw [if_pos rfl]
    simp [hf]

/-- C7 witness: the amended theorem applied to a filesystem holding a
single zero-byte file, and to the empty filesystem. -/
theorem sequence_retrieval_empty_witness :
    (fsZero "prot.fasta" "prot.fasta" = some { size := 0, records := [] }
      ∧ get_submitted_protein_sequence (fsZero "prot.fasta") "prot.fasta" = .ok [])
    ∧ (fsZero "wd/in.fa.temp.contigToORF.fsa"
        (py_path_join modelOff.working_directory
          (py_basename "in.fa" ++ ".temp.contigToORF.fsa")) = some { size := 0, records := [] }
      ∧ get_orf_dna_sequence (fsZero "wd/in.fa.temp.contigToORF.fsa") modelOff "in.fa" "contig" =
          .ok [])
    ∧ ((fun _ => none : String → Option FastaFile) "prot.fasta" = none
      ∧ get_submitted_protein_sequence (fun _ => none) "prot.fasta" =
          .error "FileNotFoundError") :=
  ⟨⟨by decide,
      sequence_retrieval_empty_amended.1 (fsZero "prot.fasta") "prot.fasta"
        { size := 0, records := [] } (by decide) rfl⟩,
    ⟨by decide,
      sequence_retrieval_empty_amended.2.2.1 (fsZero "wd/in.fa.temp.contigToORF.fsa") modelOff
        "in.fa" { size := 0, records := [] } (by decide) rfl⟩,
    ⟨rfl,
      sequence_retrieval_empty_amended.2.1 (fun _ => none) "prot.fasta" rfl⟩⟩

/-! ## Nudge engine: helper lemmas -/

/-- A tier tag other than Perfect ranks at most Strict. -/
theorem tier_rank_le_two (t : String) (hp : t ≠ "Perfect") : tier_rank t ≤ 2 := by
  unfold tier_rank
  by_cases h1 : t = "Loose"
  · simp [h1]
  · by_cases h2 : t = "Strict"
    · simp [h1, h2]
    · simp [h1, h2, hp]

/-- The mutated hit of the loose promotion rule, as a conditional. -/
theorem nudge_loose_one_snd (h : Hit) :
    (nudge_loose_one h).2 =
      if 95 ≤ py_int h.perc_identity ∧ py_int h.perc_identity ≤ 100
      then { h with type_match := "Strict", nudged := true } else h := by
  unfold nudge_loose_one
  split
  case isTrue hc => rfl
  case isFalse hc => rfl

/-- The promotion flag of the loose promotion rule, as a decision. -/
theorem nudge_loose_one_fst (h : Hit) :
    (nudge_loose_one h).1 =
      decide (95 ≤ py_int h.perc_identity ∧ py_int h.perc_identity ≤ 100) := by
  unfold nudge_loose_one
  split
  case isTrue hc => simp [hc]
  case isFalse hc => simp [hc]

/-- The loose promotion rule never touches the frozen fields. -/
theorem nudge_loose_one_core (h : Hit) : hit_core (nudge_loose_one h).2 = hit_core h := by
  unfold nudge_loose_one
  split
  · rfl
  · rfl

/-- The loose promotion rule never lowers the tier of a non-Perfect hit. -/
theorem nudge_loose_one_rank (h : Hit) (hp : h.type_match ≠ "Perfect") :
    tier_rank h.type_match ≤ tier_rank (nudge_loose_one h).2.type_match := by
  unfold nudge_loose_one
  split
  · exact tier_rank_le_two h.type_match hp
  · exact le_refl _

/-- Re-running the loose promotion rule on its own output changes
nothing: a promoted hit still satisfies the guard and is assigned the
same field values again. -/
theorem nudge_loose_one_idem (h : Hit) :
    (nudge_loose_one (nudge_loose_one h).2).2 = (nudge_loose_one h).2 := by
  by_cases hc : 95 ≤ py_int h.perc_identity ∧ py_int h.perc_identity ≤ 100
  · simp [nudge_loose_one, hc]
  · simp [nudge_loose_one, hc]

/-- nudge_loose_to_strict is the pointwise promotion rule together with
an any-fold of the per-hit flags. -/
theorem nudge_loose_to_strict_eq (l : TierMap) :
    nudge_loose_to_strict l =
      (l.any (fun p => (nudge_loose_one p.2).1),
        l.map (fun p => (p.1, (nudge_loose_one p.2).2))) := by
  induction l with
  | nil => rfl
  | cons p rest ih =>
    obtain ⟨k, h⟩ := p
    simp [nudge_loose_to_strict, ih]

/-- Outcome analysis of nudge_one: either the hit is returned unchanged
with a false flag, or it is promoted from Strict to Perfect with the
nudged flag set and every frozen field untouched. -/
theorem nudge_one_ok_shape (m : BaseModel) (h : Hit) (b : Bool) (h' : Hit)
    (hok : nudge_one m h = .ok (b, h')) :
    (b = false ∧ h' = h) ∨
      (b = true ∧ h.type_match = "Strict" ∧ h'.type_match = "Perfect"
        ∧ h'.nudged = true ∧ hit_core h' = hit_core h) := by
  unfold nudge_one at hok
  split at hok
  case isTrue hguard =>
    dsimp only at hok
    split at hok
    case isTrue hA =>
      split at hok
      · exact absurd hok (by simp)
      · exact absurd hok (by simp)
      · split at hok
        · exact absurd hok (by simp)
        · split at hok
          case isTrue hcomb =>
            simp only [Except.ok.injEq, Prod.mk.injEq] at hok
            obtain ⟨hb, hh⟩ := hok
            subst hb
            subst hh
            exact Or.inr ⟨rfl, hguard.2.1, rfl, rfl, rfl⟩
          case isFalse =>
            simp only [Except.ok.injEq, Prod.mk.injEq] at hok
            exact Or.inl ⟨hok.1.symm, hok.2.symm⟩
    case isFalse =>
      split at hok
      case isTrue hB =>
        simp only [Except.ok.injEq, Prod.mk.injEq] at hok
        obtain ⟨hb, hh⟩ := hok
        subst hb
        subst hh
        exact Or.inr ⟨rfl, hguard.2.1, rfl, rfl, rfl⟩
      case isFalse =>
        simp only [Except.ok.injEq, Prod.mk.injEq] at hok
        exact Or.inl ⟨hok.1.symm, hok.2.symm⟩
  case isFalse =>
    simp only [Except.ok.injEq, Prod.mk.injEq] at hok
    exact Or.inl ⟨hok.1.symm, hok.2.symm⟩

/-- A second run of nudge_one on the outcome of a first successful run
returns the hit unchanged with a false flag: a promoted hit fails the
Strict guard, an unpromoted hit repeats the same non-mutating path. -/
theorem nudge_one_second (m : BaseModel) (h : Hit) (b : Bool) (h' : Hit)
    (hok : nudge_one m h = .ok (b, h')) : nudge_one m h' = .ok (false, h') := by
  rcases nudge_one_ok_shape m h b h' hok with ⟨hb, hh⟩ | ⟨hb, hty, hty', hnud, hcore⟩
  · subst hb
    subst hh
    exact hok
  · have hcond : ¬ (py_int h'.perc_identity = 100 ∧ h'.type_match = "Strict"
        ∧ h'.model_type_id ≠ 40295) := by
      rintro ⟨-, hstrict, -⟩
      rw [hty'] at hstrict
      exact absurd hstrict (by decide)
    unfold nudge_one
    rw [if_neg hcond]

/-- Inversion of nudge_strict_to_perfect at a cons cell. -/
theorem nudge_strict_cons_inv (m : BaseModel) (k : String) (h : Hit) (rest : TierMap)
    (b : Bool) (l' : TierMap)
    (hok : nudge_strict_to_perfect m ((k, h) :: rest) = .ok (b, l')) :
    ∃ bh h1 bs rest1, nudge_one m h = .ok (bh, h1)
      ∧ nudge_strict_to_perfect m rest = .ok (bs, rest1)
      ∧ b = (bh || bs) ∧ l' = (k, h1) :: rest1 := by
  unfold nudge_strict_to_perfect at hok
  split at hok
  · exact absurd hok (by simp)
  next bh h1 heq =>
    split at hok
    · exact absurd hok (by simp)
    next bs rest1 heq2 =>
      simp only [Except.ok.injEq, Prod.mk.injEq] at hok
      exact ⟨bh, h1, bs, rest1, heq, heq2, hok.1.symm, hok.2.symm⟩

/-- A successful strict nudge leaves every frozen field of every hit
unchanged. -/
theorem nudge_strict_core (m : BaseModel) : ∀ (l : TierMap) (b : Bool) (l' : TierMap),
    nudge_strict_to_perfect m l = .ok (b, l') →
    l'.map (fun p => (p.1, hit_core p.2)) = l.map (fun p => (p.1, hit_core p.2)) := by
  intro l
  induction l with
  | nil =>
    intro b l' hok
    unfold nudge_strict_to_perfect at hok
    simp only [Except.ok.injEq, Prod.mk.injEq] at hok
    rw [← hok.2]
  | cons p rest ih =>
    obtain ⟨k, h⟩ := p
    intro b l' hok
    obtain ⟨bh, h1, bs, rest1, h1ok, hrest, -, hl⟩ := nudge_strict_cons_inv m k h rest b l' hok
    subst hl
    rcases nudge_one_ok_shape m h bh h1 h1ok with ⟨-, hh⟩ | ⟨-, -, -, -, hcore⟩
    · subst hh
      simp [ih bs rest1 hrest]
    · simp [ih bs rest1 hrest, hcore]

/-- A second run of the strict nudge on the mapping returned by a first
successful run returns the same mapping and a false flag. -/
theorem nudge_strict_second (m : BaseModel) : ∀ (l : TierMap) (b : Bool) (l' : TierMap),
    nudge_strict_to_perfect m l = .ok (b, l') →
    nudge_strict_to_perfect m l' = .ok (false, l') := by
  intro l
  induction l with
  | nil =>
    intro b l' hok
    unfold nudge_strict_to_perfect at hok
    simp only [Except.ok.injEq, Prod.mk.injEq] at hok
    rw [← hok.2]
    rfl
  | cons p rest ih =>
    obtain ⟨k, h⟩ := p
    intro b l' hok
    obtain ⟨bh, h1, bs, rest1, h1ok, hrest, -, hl⟩ := nudge_strict_cons_inv m k h rest b l' hok
    subst hl
    have e1 := nudge_one_second m h bh h1 h1ok
    have e2 := ih bs rest1 hrest
    simp [nudge_strict_to_perfect, e1, e2]

/-- A successful strict nudge never lowers any hit's tier. -/
theorem nudge_strict_rank (m : BaseModel) : ∀ (l : TierMap) (b : Bool) (l' : TierMap),
    nudge_strict_to_perfect m l = .ok (b, l') →
    List.Forall₂ (fun p q : String × Hit =>
      tier_rank p.2.type_match ≤ tier_rank q.2.type_match) l l' := by
  intro l
  induction l with
  | nil =>
    intro b l' hok
    unfold nudge_strict_to_perfect at hok
    simp only [Except.ok.injEq, Prod.mk.injEq] at hok
    rw [← hok.2]
    exact List.Forall₂.nil
  | cons p rest ih =>
    obtain ⟨k, h⟩ := p
    intro b l' hok
    obtain ⟨bh, h1, bs, rest1, h1ok, hrest, -, hl⟩ := nudge_strict_cons_inv m k h rest b l' hok
    subst hl
    refine List.Forall₂.cons ?_ (ih bs rest1 hrest)
    rcases nudge_one_ok_shape m h bh h1 h1ok with ⟨-, hh⟩ | ⟨-, hty, hty', -, -⟩
    · subst hh
      exact le_refl _
    · rw [hty, hty']
      decide

/-! ## Claim theorems: nudge engine and classifier -/

/-- C5: nudge_loose_to_strict promotes exactly the hits whose truncated
percent identity lies in [95, 100] (setting type_match Strict and
nudged true, all other hits unchanged), its flag is true exactly when
at least one promotion occurred, and concretely a loose hit at 97 is
promoted while one at 94 is untouched. -/
theorem loose_to_strict_characterization :
    (∀ l : TierMap, (nudge_loose_to_strict l).2 = l.map (fun p => (p.1,
      if 95 ≤ py_int p.2.perc_identity ∧ py_int p.2.perc_identity ≤ 100
      then { p.2 with type_match := "Strict", nudged := true } else p.2)))
    ∧ (∀ l : TierMap, (nudge_loose_to_strict l).1 = l.any (fun p =>
      decide (95 ≤ py_int p.2.perc_identity ∧ py_int p.2.perc_identity ≤ 100)))
    ∧ nudge_loose_to_strict [("l1", hit97), ("l2", hit94)] =
      (true, [("l1", { hit97 with type_match := "Strict", nudged := true }), ("l2", hit94)]) := by
  refine ⟨?_, ?_, by decide⟩
  · intro l
    rw [nudge_loose_to_strict_eq]
    simp only [nudge_loose_one_snd]
  · intro l
    rw [nudge_loose_to_strict_eq]
    simp only [nudge_loose_one_fst]

/-- C2: results reports a non-empty perfect mapping as-is with no nudge
(its output does not depend on the strict or loose mappings); with
perfect empty and strict non-empty it runs the strict nudge and
reports the possibly promoted strict mapping; with all three mappings
empty it records nothing. -/
theorem results_tier_dominance :
    (∀ (m : BaseModel) (br : List (String × TierMap)) (q : String)
      (perfect strict loose : TierMap), perfect ≠ [] →
      results m br q perfect strict loose = .ok (py_dict_set br q perfect))
    ∧ (∀ (m : BaseModel) (br : List (String × TierMap)) (q : String)
      (perfect strict loose : TierMap) (b : Bool) (strict1 : TierMap),
      perfect = [] → strict ≠ [] →
      nudge_strict_to_perfect m strict = .ok (b, strict1) →
      results m br q perfect strict loose = .ok (py_dict_set br q strict1))
    ∧ (∀ (m : BaseModel) (br : List (String × TierMap)) (q : String),
      results m br q [] [] [] = .ok br) := by
  refine ⟨?_, ?_, ?_⟩
  · intro m br q P S L hne
    have h0 : P.length ≠ 0 := by simpa [List.length_eq_zero] using hne
    unfold results
    rw [if_neg (by rintro ⟨h1, -, -⟩; exact h0 h1), if_neg h0,
      if_pos (Nat.pos_of_ne_zero h0)]
  · intro m br q P S L b s1 hP hS hnudge
    subst hP
    have hS0 : S.length ≠ 0 := by simpa [List.length_eq_zero] using hS
    unfold results
    rw [if_neg (by rintro ⟨-, h2, -⟩; exact hS0 h2),
      if_pos (show ([] : TierMap).length = 0 from rfl),
      if_pos (Nat.pos_of_ne_zero hS0), hnudge]
  · intro m br q
    rfl

/-- C2 witness: the three conjuncts at concrete inputs: a perfect hit
wins untouched, a strict Case B hit is nudged and reported, and the
all-empty query records nothing. -/
theorem results_tier_dominance_witness :
    ([("p1", hit97)] ≠ ([] : TierMap)
      ∧ results modelOff [] "q1" [("p1", hit97)] [("s1", hitB)] [] =
        .ok [("q1", [("p1", hit97)])])
    ∧ (([] : TierMap) = [] ∧ [("s1", hitB)] ≠ ([] : TierMap)
      ∧ nudge_strict_to_perfect modelOff [("s1", hitB)] = .ok (true, [("s1", hitB1)])
      ∧ results modelOff [] "q1" [] [("s1", hitB)] [] = .ok [("q1", [("s1", hitB1)])])
    ∧ results modelOff [] "q1" [] [] [] = .ok [] :=
  ⟨⟨by decide,
      results_tier_dominance.1 modelOff [] "q1" [("p1", hit97)] [("s1", hitB)] []
        (by decide)⟩,
    ⟨rfl, by decide, by rfl,
      results_tier_dominance.2.1 modelOff [] "q1" [] [("s1", hitB)] [] true [("s1", hitB1)]
        rfl (by decide) (by rfl)⟩,
    results_tier_dominance.2.2 modelOff [] "q1"⟩

/-- C3: with perfect and strict empty and loose non-empty, results runs
the loose nudge and records the (possibly mutated) loose mapping
exactly when the loose flag is on, or the flag is off and the nudge
promoted at least one hit; concretely, a lone unpromotable loose hit is
dropped under loose=false and reported unchanged under loose=true. -/
theorem results_loose_reporting :
    (∀ (m : BaseModel) (br : List (String × TierMap)) (q : String) (loose : TierMap),
      loose ≠ [] →
      results m br q [] [] loose =
        .ok (if m.loose = true ∨ (m.loose = false ∧ (nudge_loose_to_strict loose).1 = true)
          then py_dict_set br q (nudge_loose_to_strict loose).2 else br))
    ∧ results modelOff [] "q1" [] [] [("l1", hit94)] = .ok []
    ∧ results modelOn [] "q1" [] [] [("l1", hit94)] = .ok [("q1", [("l1", hit94)])] := by
  refine ⟨?_, by rfl, by rfl⟩
  intro m br q L hne
  have hpos : L.length > 0 := List.length_pos.mpr hne
  unfold results
  rw [if_pos ⟨rfl, rfl, hpos⟩]
  cases hm : m.loose <;> cases hr : (nudge_loose_to_strict L).1 <;> simp [hm, hr]

/-- C3 witness: the general conjunct applied to the two concrete
scenarios of the claim (unpromotable loose hit, flag off then on). -/
theorem results_loose_reporting_witness :
    ([("l1", hit94)] ≠ ([] : TierMap)
      ∧ results modelOff [] "q1" [] [] [("l1", hit94)] =
        .ok (if modelOff.loose = true ∨ (modelOff.loose = false
            ∧ (nudge_loose_to_strict [("l1", hit94)]).1 = true)
          then py_dict_set [] "q1" (nudge_loose_to_strict [("l1", hit94)]).2 else []))
    ∧ ([("l1", hit94)] ≠ ([] : TierMap)
      ∧ results modelOn [] "q1" [] [] [("l1", hit94)] =
        .ok (if modelOn.loose = true ∨ (modelOn.loose = false
            ∧ (nudge_loose_to_strict [("l1", hit94)]).1 = true)
          then py_dict_set [] "q1" (nudge_loose_to_strict [("l1", hit94)]).2 else [])) :=
  ⟨⟨by decide, results_loose_reporting.1 modelOff [] "q1" [("l1", hit94)] (by decide)⟩,
    ⟨by decide, results_loose_reporting.1 modelOn [] "q1" [("l1", hit94)] (by decide)⟩⟩

/-- C9: both nudge functions are idempotent on the mapping state:
re-running nudge_loose_to_strict on its own output mapping returns the
same mapping, and re-running nudge_strict_to_perfect on the mapping of
a successful run returns the same mapping (with no further
promotions). -/
theorem nudge_idempotent :
    (∀ l : TierMap,
      (nudge_loose_to_strict (nudge_loose_to_strict l).2).2 = (nudge_loose_to_strict l).2)
    ∧ (∀ (m : BaseModel) (s : TierMap) (b : Bool) (s1 : TierMap),
      nudge_strict_to_perfect m s = .ok (b, s1) →
      nudge_strict_to_perfect m s1 = .ok (false, s1)) := by
  constructor
  · intro l
    rw [nudge_loose_to_strict_eq, nudge_loose_to_strict_eq]
    simp only [List.map_map]
    refine List.map_congr_left ?_
    intro p _
    simp only [Function.comp]
    rw [nudge_loose_one_idem]
  · intro m s b s1 hok
    exact nudge_strict_second m s b s1 hok

/-- C9 witness: the strict conjunct at the concrete Case B hit: the
first run promotes it, the second run changes nothing. -/
theorem nudge_idempotent_witness :
    nudge_strict_to_perfect modelOff [("s1", hitB)] = .ok (true, [("s1", hitB1)])
    ∧ nudge_strict_to_perfect modelOff [("s1", hitB1)] = .ok (false, [("s1", hitB1)]) :=
  ⟨by rfl,
    nudge_idempotent.2 modelOff [("s1", hitB)] true [("s1", hitB1)] (by rfl)⟩

/-- Forall₂ between a list and its pointwise image, from the pointwise
property. -/
theorem forall₂_map_self {α : Type} (f : α → α) (R : α → α → Prop)
    (hf : ∀ a, R a (f a)) : ∀ l : List α, List.Forall₂ R l (l.map f)
  | [] => List.Forall₂.nil
  | a :: l => List.Forall₂.cons (hf a) (forall₂_map_self f R hf l)

/-- C8: hits only move up the tier order and only classification fields
change: both nudge functions leave every frozen field (identity,
sequences, coordinates, strand, name) of every hit untouched and never
lower the tier of a hit that is not already Perfect (the strict nudge
unconditionally); and results only ever records the perfect mapping
as-is or a nudged mapping whose frozen fields agree with the input
tier mapping, so coordinates are never modified by results either. -/
theorem nudge_upward_core_frozen :
    (∀ l : TierMap, ((nudge_loose_to_strict l).2).map (fun p => (p.1, hit_core p.2))
      = l.map (fun p => (p.1, hit_core p.2)))
    ∧ (∀ l : TierMap, List.Forall₂ (fun p q : String × Hit =>
      p.2.type_match ≠ "Perfect" →
        tier_rank p.2.type_match ≤ tier_rank q.2.type_match) l (nudge_loose_to_strict l).2)
    ∧ (∀ (m : BaseModel) (s : TierMap) (b : Bool) (s1 : TierMap),
      nudge_strict_to_perfect m s = .ok (b, s1) →
      s1.map (fun p => (p.1, hit_core p.2)) = s.map (fun p => (p.1, hit_core p.2)))
    ∧ (∀ (m : BaseModel) (s : TierMap) (b : Bool) (s1 : TierMap),
      nudge_strict_to_perfect m s = .ok (b, s1) →
      List.Forall₂ (fun p q : String × Hit =>
        tier_rank p.2.type_match ≤ tier_rank q.2.type_match) s s1)
    ∧ (∀ (m : BaseModel) (br : List (String × TierMap)) (q : String)
      (P S L : TierMap) (out : List (String × TierMap)),
      results m br q P S L = .ok out →
      out = br ∨ ∃ X, out = py_dict_set br q X
        ∧ (X.map (fun p => (p.1, hit_core p.2)) = P.map (fun p => (p.1, hit_core p.2))
          ∨ X.map (fun p => (p.1, hit_core p.2)) = S.map (fun p => (p.1, hit_core p.2))
          ∨ X.map (fun p => (p.1, hit_core p.2)) = L.map (fun p => (p.1, hit_core p.2)))) := by
  have loose_core : ∀ l : TierMap,
      ((nudge_loose_to_strict l).2).map (fun p => (p.1, hit_core p.2))
        = l.map (fun p => (p.1, hit_core p.2)) := by
    intro l
    rw [nudge_loose_to_strict_eq]
    simp only [List.map_map]
    refine List.map_congr_left ?_
    intro p _
    simp [Function.comp, nudge_loose_one_core]
  refine ⟨loose_core, ?_, nudge_strict_core, nudge_strict_rank, ?_⟩
  · intro l
    rw [nudge_loose_to_strict_eq]
    exact forall₂_map_self _ _ (fun p hp => nudge_loose_one_rank p.2 hp) l
  · intro m br q P S L out hres
    unfold results at hres
    split at hres
    case isTrue hcond =>
      split at hres
      case isTrue =>
        simp only [Except.ok.injEq] at hres
        exact Or.inr ⟨(nudge_loose_to_strict L).2, hres.symm,
          Or.inr (Or.inr (loose_core L))⟩
      case isFalse =>
        split at hres
        case isTrue =>
          simp only [Except.ok.injEq] at hres
          exact Or.inr ⟨(nudge_loose_to_strict L).2, hres.symm,
            Or.inr (Or.inr (loose_core L))⟩
        case isFalse =>
          simp only [Except.ok.injEq] at hres
          exact Or.inl hres.symm
    case isFalse =>
      split at hres
      case isTrue =>
        split at hres
        case isTrue =>
          split at hres
          · exact absurd hres (by simp)
          next b1 s1 heq =>
            simp only [Except.ok.injEq] at hres
            exact Or.inr ⟨s1, hres.symm, Or.inr (Or.inl (nudge_strict_core m S b1 s1 heq))⟩
        case isFalse =>
          simp only [Except.ok.injEq] at hres
          exact Or.inl hres.symm
      case isFalse =>
        split at hres
        case isTrue =>
          simp only [Except.ok.injEq] at hres
          exact Or.inr ⟨P, hres.symm, Or.inl rfl⟩
        case isFalse =>
          simp only [Except.ok.injEq] at hres
          exact Or.inl hres.symm

/-- C8 witness: the strict-nudge conjuncts and the results conjunct
applied at the concrete Case B promotion. -/
theorem nudge_upward_core_frozen_witness :
    ([("s1", hitB1)].map (fun p => (p.1, hit_core p.2))
      = [("s1", hitB)].map (fun p => (p.1, hit_core p.2)))
    ∧ List.Forall₂ (fun p q : String × Hit =>
        tier_rank p.2.type_match ≤ tier_rank q.2.type_match) [("s1", hitB)] [("s1", hitB1)]
    ∧ ([("q1", [("s1", hitB1)])] = ([] : List (String × TierMap))
      ∨ ∃ X, [("q1", [("s1", hitB1)])] = py_dict_set [] "q1" X
        ∧ (X.map (fun p => (p.1, hit_core p.2)) = ([] : TierMap).map (fun p => (p.1, hit_core p.2))
          ∨ X.map (fun p => (p.1, hit_core p.2)) = [("s1", hitB)].map (fun p => (p.1, hit_core p.2))
          ∨ X.map (fun p => (p.1, hit_core p.2)) = ([] : TierMap).map (fun p => (p.1, hit_core p.2)))) :=
  ⟨nudge_upward_core_frozen.2.2.1 modelOff [("s1", hitB)] true [("s1", hitB1)] (by rfl),
    nudge_upward_core_frozen.2.2.2.1 modelOff [("s1", hitB)] true [("s1", hitB1)] (by rfl),
    nudge_upward_core_frozen.2.2.2.2 modelOff [] "q1" [] [("s1", hitB)] []
      [("q1", [("s1", hitB1)])] (by rfl)⟩

/-- C6: a qualifying strict hit (truncated identity 100, Strict tag,
non-exempt model type) whose ORF protein strictly contains the
reference as a substring is promoted immediately to Perfect with
nudged set; no partial-sequence fetch happens (the conclusion is
independent of the model's sequence store, partial_bases keeps its
input value). -/
theorem strict_case_b_promotion (m : BaseModel) (h : Hit)
    (h100 : py_int h.perc_identity = 100) (hty : h.type_match = "Strict")
    (hid : h.model_type_id ≠ 40295)
    (hlong : h.sequence_from_broadstreet.length < h.orf_prot_sequence.length)
    (hsub : py_in h.sequence_from_broadstreet h.orf_prot_sequence = true) :
    nudge_one m h = .ok (true, { h with type_match := "Perfect", nudged := true }) := by
  unfold nudge_one
  rw [if_pos ⟨h100, hty, hid⟩]
  dsimp only
  rw [if_neg (by rintro ⟨hc, -⟩; omega), if_pos ⟨hlong, hsub⟩]

/-- C6 witness: the Case B promotion at the concrete specification
example hit, with the empty sequence store. -/
theorem strict_case_b_promotion_witness :
    (py_int hitB.perc_identity = 100 ∧ hitB.type_match = "Strict"
      ∧ hitB.model_type_id ≠ 40295
      ∧ hitB.sequence_from_broadstreet.length < hitB.orf_prot_sequence.length
      ∧ py_in hitB.sequence_from_broadstreet hitB.orf_prot_sequence = true)
    ∧ nudge_one modelOff hitB = .ok (true, hitB1) :=
  ⟨⟨by decide, rfl, by decide, by decide, by decide⟩,
    strict_case_b_promotion modelOff hitB (by decide) rfl (by decide) (by decide) (by decide)⟩

/-- C1 counterexample: the code's Case A combine keeps only the first
translated residue when it is not an alternate start (L, M, I, V). At
this concrete qualifying hit the fetched bases GGTGCTA translate to
GA, the combine the claim describes (whole normalized partial protein
GA plus match K) equals the reference GAK, yet the program computes
G plus K = GK and does not promote. -/
theorem strict_case_a_promotion_cex :
    (py_int hitC.perc_identity = 100 ∧ hitC.type_match = "Strict"
      ∧ hitC.model_type_id ≠ 40295
      ∧ hitC.orf_prot_sequence.length < hitC.sequence_from_broadstreet.length
      ∧ py_in hitC.orf_prot_sequence hitC.sequence_from_broadstreet = true)
    ∧ get_part_sequence modelC.input_sequence hitC.orf_from hitC.orf_start hitC.orf_end
        (((hitC.sequence_from_broadstreet.length : Int) - (hitC.match_.length : Int)) * 3)
        hitC.orf_strand hitC.ARO_name = .ok (some "GGTGCTA")
    ∧ claim_normalize_start (strand_translate hitC.orf_strand "GGTGCTA") ++ hitC.match_
        = hitC.sequence_from_broadstreet
    ∧ normalize_start (strand_translate hitC.orf_strand "GGTGCTA") ++ hitC.match_
        ≠ hitC.sequence_from_broadstreet
    ∧ nudge_one modelC hitC = .ok (false, hitC) :=
  ⟨⟨by decide, rfl, by decide, by decide, by decide⟩, by rfl, by decide, by decide, by rfl⟩

/-- C1 (amended: in the Case A combine the program keeps only the
first translated residue unless it is an alternate start): a
qualifying strict hit (truncated identity 100, Strict tag, non-exempt
model type) whose ORF protein is strictly shorter than the reference
and a substring of it triggers the Case A path: the fetcher is invoked
on the hit's coordinates and strand with length
(len(reference) - len(match)) * 3; the fetched bases are translated
strand-aware under table 11, _partial_protein is the first translated
residue — replaced by M followed by the remainder of the protein when
that residue is one of L, M, I, V — and the hit is promoted (Perfect,
nudged, partial_bases stored) exactly when _partial_protein
concatenated with the hit's match equals the reference. -/
theorem strict_case_a_promotion (m : BaseModel) (h : Hit) (bases : String)
    (h100 : py_int h.perc_identity = 100) (hty : h.type_match = "Strict")
    (hid : h.model_type_id ≠ 40295)
    (hshort : h.orf_prot_sequence.length < h.sequence_from_broadstreet.length)
    (hsub : py_in h.orf_prot_sequence h.sequence_from_broadstreet = true)
    (hfetch : get_part_sequence m.input_sequence h.orf_from h.orf_start h.orf_end
      (((h.sequence_from_broadstreet.length : Int) - (h.match_.length : Int)) * 3)
      h.orf_strand h.ARO_name = .ok (some bases))
    (hne : strand_translate h.orf_strand bases ≠ "") :
    nudge_one m h = .ok
      (if normalize_start (strand_translate h.orf_strand bases) ++ h.match_
          = h.sequence_from_broadstreet
        then (true, { h with type_match := "Perfect", nudged := true,
                             partial_bases := some bases })
        else (false, h)) := by
  unfold nudge_one
  rw [if_pos ⟨h100, hty, hid⟩]
  dsimp only
  rw [if_pos ⟨hshort, hsub⟩, hfetch]
  dsimp only
  cases hd : (strand_translate h.orf_strand bases).data with
  | nil => exact absurd (String.ext hd) hne
  | cons c cs =>
    dsimp only
    by_cases hcomb : normalize_start (strand_translate h.orf_strand bases) ++ h.match_
        = h.sequence_from_broadstreet
    · rw [if_pos hcomb, if_pos hcomb]
    · rw [if_neg hcomb, if_neg hcomb]

/-- C1 witness: the Case A promotion at the concrete one-contig store:
the four fetched bases ATGG translate to M, the normalized partial
protein M completes the match A into the reference MA, and the hit is
promoted with partial_bases ATGG. -/
theorem strict_case_a_promotion_witness :
    (py_int hitA.perc_identity = 100 ∧ hitA.type_match = "Strict"
      ∧ hitA.model_type_id ≠ 40295
      ∧ hitA.orf_prot_sequence.length < hitA.sequence_from_broadstreet.length
      ∧ py_in hitA.orf_prot_sequence hitA.sequence_from_broadstreet = true
      ∧ get_part_sequence modelA.input_sequence hitA.orf_from hitA.orf_start hitA.orf_end
          (((hitA.sequence_from_broadstreet.length : Int) - (hitA.match_.length : Int)) * 3)
          hitA.orf_strand hitA.ARO_name = .ok (some "ATGG")
      ∧ strand_translate hitA.orf_strand "ATGG" ≠ "")
    ∧ nudge_one modelA hitA = .ok (true, hitA1) :=
  ⟨⟨by decide, rfl, by decide, by decide, by decide, by rfl, by decide⟩,
    (strict_case_a_promotion modelA hitA "ATGG" (by decide) rfl (by decide) (by decide)
        (by decide) (by rfl) (by decide)).trans (by rfl)⟩
